import Mathlib

/-!
# Verification of the wginit orchestration state machine

A shallow embedding of `src/lib.rs` of the `wginit` crate: the
`WinitApplicationHandler` state (window slot, wgpu bundle slot, suspend
counter), each winit callback as a pure function from the state to a new
state together with a list of observable effects (application callback
invocations, surface configuration, window creation, build launches), and
a `run` function folding event traces for temporal properties.

External libraries (`winit`, `wgpu`) are modelled as the environment:
window creation always succeeds and yields the single opaque handle;
`Surface::get_default_config` returns a configuration with exactly the
width and height it is given; the winit event-loop proxy accepts a send
when the loop is alive and returns the message when it is closed.
Rust panics (`unwrap`, `unreachable!`) are modelled as `none`.
-/

namespace Wginit

/-- `u64` modulus: the suspend counter is a `u64` in the source. -/
def U64_MOD : Nat := 2 ^ 64

/-- `winit::dpi::PhysicalSize<u32>` as used by resize events. -/
structure PhysicalSize where
  width : Nat
  height : Nat
deriving DecidableEq, Repr

/-- The part of `wgpu::SurfaceConfiguration` relevant here: its dimensions. -/
structure SurfaceConfiguration where
  width : Nat
  height : Nat
deriving DecidableEq, Repr

/-- Environment model of `wgpu::Surface::get_default_config`: the returned
configuration carries exactly the width and height passed in. -/
def get_default_config (width height : Nat) : SurfaceConfiguration :=
  { width := width, height := height }

/-- Default `ApplicationHandler::surface_configuration` (src/lib.rs:368-376):
`surface.get_default_config(&adapter, size.width.max(1), size.height.max(1)).unwrap()`. -/
def surface_configuration (size : PhysicalSize) : SurfaceConfiguration :=
  get_default_config (max size.width 1) (max size.height 1)

/-- The `Wgpu` bundle (src/lib.rs:43-56). The device, queue, adapter and
surface are opaque resources, modelled as `Unit`; the `suspend_count`
field is the `u64` counter value captured at construction time. -/
structure Wgpu where
  device : Unit
  queue : Unit
  adapter : Unit
  surface : Unit
  suspend_count : Nat
deriving DecidableEq, Repr

/-- `Wgpu::new` (src/lib.rs:58-90): builds the opaque resources and stores
the `suspend_count` argument unchanged in the field of the same name. -/
def Wgpu.new (suspend_count : Nat) : Wgpu :=
  { device := (), queue := (), adapter := (), surface := (), suspend_count := suspend_count }

/-- The window events distinguished by `WinitApplicationHandler::window_event`;
every event other than `Resized` and `RedrawRequested` falls into the
catch-all arm, represented by `closeRequested` and `other`. -/
inductive WindowEvent where
  | Resized (size : PhysicalSize)
  | RedrawRequested
  | closeRequested
  | other
deriving DecidableEq, Repr

/-- The internal `UserEvent` enum (src/lib.rs:114-117). -/
inductive UserEvent (C : Type) where
  | WgpuReady (wgpu : Wgpu)
  | Custom (e : C)
deriving DecidableEq

/-- `winit::event_loop::EventLoopClosed`: the error returned by a send into
a closed loop, carrying the undelivered payload back. -/
structure EventLoopClosed (C : Type) where
  event : C
deriving DecidableEq

/-- Environment model of `winit::event_loop::EventLoopProxy::send_event`:
succeeds while the loop is alive, returns the message inside
`EventLoopClosed` once the loop has shut down. -/
def EventLoopProxy.send_event (alive : Bool) (event : UserEvent C) :
    Except (EventLoopClosed (UserEvent C)) Unit :=
  if alive then Except.ok () else Except.error ⟨event⟩

/-- `UserEventSender::send_event` (src/lib.rs:130-137): wraps the payload in
`UserEvent::Custom`, sends it through the proxy, and maps a closed-loop
error back to `EventLoopClosed` of the original payload. The
`unreachable!` arm (the returned payload not being `Custom`) is modelled
as `none` (panic). -/
def UserEventSender.send_event (alive : Bool) (e : C) :
    Option (Except (EventLoopClosed C) Unit) :=
  match EventLoopProxy.send_event alive (UserEvent.Custom e) with
  | Except.ok () => some (Except.ok ())
  | Except.error err =>
    match err.event with
    | UserEvent.Custom e => some (Except.error ⟨e⟩)
    | UserEvent.WgpuReady _ => none

/-- The `Context` view passed to application callbacks (src/lib.rs:11-26),
minus the event-loop handle: presence of the window reference and the
wgpu bundle snapshot. -/
structure Context where
  window : Option Unit
  wgpu : Option Wgpu
deriving DecidableEq, Repr

/-- Observable effects of one handler invocation, in order: window
creation, launching the asynchronous `Wgpu::new` build (tagged with the
suspend counter it was given), application callback invocations,
surface reconfiguration and redraw requests. -/
inductive Effect (C : Type) where
  | createWindow
  | launchBuild (suspend_count : Nat)
  | appResumed (ctxt : Context)
  | appSuspended (ctxt : Context)
  | appWindowEvent (ctxt : Context) (event : WindowEvent)
  | appUserEvent (ctxt : Context) (e : C)
  | appRedraw (wgpu : Wgpu)
  | surfaceConfigure (config : SurfaceConfiguration)
  | requestRedraw
deriving DecidableEq

/-- The `WinitApplicationHandler` state (src/lib.rs:140-149): the window
slot (the handle itself is opaque), the wgpu bundle slot, and the
suspend counter. -/
structure WinitApplicationHandler where
  window : Option Unit
  wgpu : Option Wgpu
  suspend_count : Nat
deriving DecidableEq, Repr

/-- `WinitApplicationHandler::new` (src/lib.rs:155-163): both slots empty,
counter zero. -/
def WinitApplicationHandler.new : WinitApplicationHandler :=
  { window := none, wgpu := none, suspend_count := 0 }

variable {C : Type}

/-- `resumed` (src/lib.rs:171-197): `get_or_insert_with` creates the window
only when the slot is empty, then launches `Wgpu::new` tagged with the
current suspend counter. -/
def WinitApplicationHandler.resumed (s : WinitApplicationHandler) :
    WinitApplicationHandler × List (Effect C) :=
  match s.window with
  | some _ => (s, [Effect.launchBuild s.suspend_count])
  | none =>
    ({ s with window := some () },
      [Effect.createWindow, Effect.launchBuild s.suspend_count])

/-- `suspended` (src/lib.rs:199-207): drop the bundle, increment the `u64`
counter, then invoke the application's suspend callback with the current
(bundle-free) context. -/
def WinitApplicationHandler.suspended (s : WinitApplicationHandler) :
    WinitApplicationHandler × List (Effect C) :=
  let s' : WinitApplicationHandler :=
    { s with wgpu := none, suspend_count := (s.suspend_count + 1) % U64_MOD }
  (s', [Effect.appSuspended ⟨s'.window, s'.wgpu⟩])

/-- `window_event` (src/lib.rs:241-277). `Resized`: unwrap the window
(panic, modelled `none`, if absent), return early if the bundle is
absent, otherwise reconfigure the surface and request a redraw.
`RedrawRequested`: unwrap the window, return early if the bundle is
absent, otherwise invoke the redraw callback. The `return` in the
`let-else` arms exits the whole function, so the trailing generic
`app.window_event` call is reached only when no early return fired. -/
def WinitApplicationHandler.window_event (s : WinitApplicationHandler)
    (event : WindowEvent) : Option (List (Effect C)) :=
  match event with
  | WindowEvent.Resized size =>
    match s.window with
    | none => none
    | some _ =>
      match s.wgpu with
      | none => some []
      | some _ =>
        some [Effect.surfaceConfigure (surface_configuration size),
          Effect.requestRedraw,
          Effect.appWindowEvent ⟨s.window, s.wgpu⟩ event]
  | WindowEvent.RedrawRequested =>
    match s.window with
    | none => none
    | some _ =>
      match s.wgpu with
      | none => some []
      | some wgpu =>
        some [Effect.appRedraw wgpu,
          Effect.appWindowEvent ⟨s.window, s.wgpu⟩ event]
  | _ => some [Effect.appWindowEvent ⟨s.window, s.wgpu⟩ event]

/-- `user_event` (src/lib.rs:279-307). `WgpuReady`: unwrap the window
(panic if absent), install the bundle, invoke the application's resume
callback with window and bundle both present, request a redraw.
`Custom`: forward to the user-event callback with the current context. -/
def WinitApplicationHandler.user_event (s : WinitApplicationHandler)
    (event : UserEvent C) :
    Option (WinitApplicationHandler × List (Effect C)) :=
  match event with
  | UserEvent.WgpuReady wgpu =>
    match s.window with
    | none => none
    | some _ =>
      some ({ s with wgpu := some wgpu },
        [Effect.appResumed ⟨s.window, some wgpu⟩, Effect.requestRedraw])
  | UserEvent.Custom e =>
    some (s, [Effect.appUserEvent ⟨s.window, s.wgpu⟩ e])

/-- Events the host event loop delivers to the handler. -/
inductive Event (C : Type) where
  | resumed
  | suspended
  | windowEvent (event : WindowEvent)
  | userEvent (event : UserEvent C)
deriving DecidableEq

/-- One dispatch of the handler; `none` models a panic. -/
def step (s : WinitApplicationHandler) (e : Event C) :
    Option (WinitApplicationHandler × List (Effect C)) :=
  match e with
  | Event.resumed => some s.resumed
  | Event.suspended => some s.suspended
  | Event.windowEvent ev =>
    match s.window_event ev with
    | none => none
    | some effs => some (s, effs)
  | Event.userEvent ev => s.user_event ev

/-- Processing a whole event trace, accumulating effects; `none` as soon
as any dispatch panics. -/
def run (s : WinitApplicationHandler) :
    List (Event C) → Option (WinitApplicationHandler × List (Effect C))
  | [] => some (s, [])
  | e :: evs =>
    (step s e).bind (fun p =>
      (run p.1 evs).bind (fun q => some (q.1, p.2 ++ q.2)))

/-- Number of window constructions recorded in an effect list. -/
def countCreates (effs : List (Effect C)) : Nat :=
  effs.countP (fun e => match e with | Effect.createWindow => true | _ => false)

/-- One event's influence on whether a bundle should be present: a
consumed builder-ready message asserts it, a suspend clears it, every
other event leaves it untouched. -/
def updReady (acc : Bool) (e : Event C) : Bool :=
  match e with
  | Event.userEvent (UserEvent.WgpuReady _) => true
  | Event.suspended => false
  | _ => acc

/-- Whether the most recent bundle-deciding lifecycle signal in the trace
is a consumed builder-ready message: `true` after a `WgpuReady` message
until the next suspend, `false` initially, after any suspend until the
next `WgpuReady`, and untouched by every other event. -/
def lastSignalIsReady (evs : List (Event C)) : Bool :=
  evs.foldl updReady false

/-- The early-return condition of `window_event`: a `Resized` or
`RedrawRequested` event arriving while the bundle slot is empty. -/
def earlyReturn (s : WinitApplicationHandler) (event : WindowEvent) : Bool :=
  match event, s.wgpu with
  | WindowEvent.Resized _, none => true
  | WindowEvent.RedrawRequested, none => true
  | _, _ => false

/-! ## Helper lemmas about single steps and traces -/

/-- Each step changes the window-presence potential by exactly the number
of window constructions it records: the window is created only when the
slot is empty and is never dropped. -/
theorem step_window_count {s s' : WinitApplicationHandler} {e : Event C}
    {effs : List (Effect C)} (h : step s e = some (s', effs)) :
    countCreates effs + (if s.window.isSome then 1 else 0)
      = (if s'.window.isSome then 1 else 0) := by
  rcases s with ⟨win, wgpu, sc⟩
  cases e with
  | resumed =>
    cases win <;>
      (simp only [step, WinitApplicationHandler.resumed, Option.some.injEq,
        Prod.mk.injEq] at h
       obtain ⟨rfl, rfl⟩ := h
       simp [countCreates, List.countP_cons])
  | suspended =>
    simp only [step, WinitApplicationHandler.suspended, Option.some.injEq,
      Prod.mk.injEq] at h
    obtain ⟨rfl, rfl⟩ := h
    simp [countCreates, List.countP_cons]
  | windowEvent ev =>
    cases ev <;> cases win <;> cases wgpu <;>
      (simp only [step, WinitApplicationHandler.window_event,
        Option.some.injEq, Prod.mk.injEq] at h <;>
       (obtain ⟨rfl, rfl⟩ := h) <;>
       simp [countCreates, List.countP_cons])
  | userEvent ev =>
    cases ev <;> cases win <;>
      (simp only [step, WinitApplicationHandler.user_event,
        Option.some.injEq, Prod.mk.injEq] at h <;>
       (obtain ⟨rfl, rfl⟩ := h) <;>
       simp [countCreates, List.countP_cons])

/-- `countCreates` is additive over concatenation. -/
theorem countCreates_append (effs effs' : List (Effect C)) :
    countCreates (effs ++ effs') = countCreates effs + countCreates effs' :=
  List.countP_append _ _ _

/-- Trace version of `step_window_count`. -/
theorem run_window_count {s s' : WinitApplicationHandler}
    {evs : List (Event C)} {effs : List (Effect C)}
    (h : run s evs = some (s', effs)) :
    countCreates effs + (if s.window.isSome then 1 else 0)
      = (if s'.window.isSome then 1 else 0) := by
  induction evs generalizing s effs with
  | nil =>
    simp only [run, Option.some.injEq, Prod.mk.injEq] at h
    rcases h with ⟨rfl, rfl⟩
    simp [countCreates]
  | cons e evs ih =>
    simp only [run] at h
    rcases hs : step s e with _ | ⟨s₁, effs₁⟩
    · simp [hs] at h
    · rw [hs, Option.some_bind] at h
      rcases hr : run s₁ evs with _ | ⟨s₂, effs₂⟩
      · simp [hr] at h
      · rw [hr, Option.some_bind, Option.some.injEq, Prod.mk.injEq] at h
        obtain ⟨rfl, rfl⟩ := h
        have h1 := step_window_count hs
        have h2 := ih hr
        rw [countCreates_append]
        dsimp only at h1 h2 ⊢
        omega

/-- Each step updates bundle presence exactly as `updReady` prescribes. -/
theorem step_wgpu_upd {s s' : WinitApplicationHandler} {e : Event C}
    {effs : List (Effect C)} (h : step s e = some (s', effs)) :
    s'.wgpu.isSome = updReady s.wgpu.isSome e := by
  rcases s with ⟨win, wgpu, sc⟩
  cases e with
  | resumed =>
    cases win <;>
      (simp only [step, WinitApplicationHandler.resumed, Option.some.injEq,
        Prod.mk.injEq] at h
       obtain ⟨rfl, rfl⟩ := h
       simp [updReady])
  | suspended =>
    simp only [step, WinitApplicationHandler.suspended, Option.some.injEq,
      Prod.mk.injEq] at h
    obtain ⟨rfl, rfl⟩ := h
    simp [updReady]
  | windowEvent ev =>
    cases ev <;> cases win <;> cases wgpu <;>
      (simp only [step, WinitApplicationHandler.window_event,
        Option.some.injEq, Prod.mk.injEq] at h <;>
       (obtain ⟨rfl, rfl⟩ := h) <;>
       simp [updReady])
  | userEvent ev =>
    cases ev <;> cases win <;>
      (simp only [step, WinitApplicationHandler.user_event,
        Option.some.injEq, Prod.mk.injEq] at h <;>
       (obtain ⟨rfl, rfl⟩ := h) <;>
       simp [updReady])

/-- Trace version of `step_wgpu_upd`: bundle presence after a trace is the
fold of `updReady` over the trace. -/
theorem run_wgpu_foldl {s s' : WinitApplicationHandler}
    {evs : List (Event C)} {effs : List (Effect C)}
    (h : run s evs = some (s', effs)) :
    s'.wgpu.isSome = evs.foldl updReady s.wgpu.isSome := by
  induction evs generalizing s effs with
  | nil =>
    simp only [run, Option.some.injEq, Prod.mk.injEq] at h
    rcases h with ⟨rfl, rfl⟩
    rfl
  | cons e evs ih =>
    simp only [run] at h
    rcases hs : step s e with _ | ⟨s₁, effs₁⟩
    · simp [hs] at h
    · rw [hs, Option.some_bind] at h
      rcases hr : run s₁ evs with _ | ⟨s₂, effs₂⟩
      · simp [hr] at h
      · rw [hr, Option.some_bind, Option.some.injEq, Prod.mk.injEq] at h
        obtain ⟨rfl, rfl⟩ := h
        rw [List.foldl_cons, ← step_wgpu_upd hs]
        exact ih hr

/-- Each step preserves the invariant that a present bundle implies a
present window. -/
theorem step_wgpu_window {s s' : WinitApplicationHandler} {e : Event C}
    {effs : List (Effect C)} (h : step s e = some (s', effs))
    (hinv : s.wgpu.isSome → s.window.isSome) :
    s'.wgpu.isSome → s'.window.isSome := by
  rcases s with ⟨win, wgpu, sc⟩
  cases e with
  | resumed =>
    cases win <;>
      (simp only [step, WinitApplicationHandler.resumed, Option.some.injEq,
        Prod.mk.injEq] at h
       obtain ⟨rfl, rfl⟩ := h
       simp_all)
  | suspended =>
    simp only [step, WinitApplicationHandler.suspended, Option.some.injEq,
      Prod.mk.injEq] at h
    obtain ⟨rfl, rfl⟩ := h
    simp_all
  | windowEvent ev =>
    cases ev <;> cases win <;> cases wgpu <;>
      (simp only [step, WinitApplicationHandler.window_event,
        Option.some.injEq, Prod.mk.injEq] at h <;>
       (obtain ⟨rfl, rfl⟩ := h) <;>
       simp_all)
  | userEvent ev =>
    cases ev <;> cases win <;>
      (simp only [step, WinitApplicationHandler.user_event,
        Option.some.injEq, Prod.mk.injEq] at h <;>
       (obtain ⟨rfl, rfl⟩ := h) <;>
       simp_all)

/-- Trace version of `step_wgpu_window`. -/
theorem run_wgpu_window {s s' : WinitApplicationHandler}
    {evs : List (Event C)} {effs : List (Effect C)}
    (h : run s evs = some (s', effs))
    (hinv : s.wgpu.isSome → s.window.isSome) :
    s'.wgpu.isSome → s'.window.isSome := by
  induction evs generalizing s effs with
  | nil =>
    simp only [run, Option.some.injEq, Prod.mk.injEq] at h
    rcases h with ⟨rfl, rfl⟩
    exact hinv
  | cons e evs ih =>
    simp only [run] at h
    rcases hs : step s e with _ | ⟨s₁, effs₁⟩
    · simp [hs] at h
    · rw [hs, Option.some_bind] at h
      rcases hr : run s₁ evs with _ | ⟨s₂, effs₂⟩
      · simp [hr] at h
      · rw [hr, Option.some_bind, Option.some.injEq, Prod.mk.injEq] at h
        obtain ⟨rfl, rfl⟩ := h
        exact ih hr (step_wgpu_window hs hinv)

/-! ## Claim theorems -/

/-- Claim C1, counterexample: a `Resized` event delivered while the wgpu
bundle is absent (window present) produces no effects at all — in
particular the application's generic window-event callback is not
invoked with the raw event, because the `let-else` `return` exits
`window_event` before the trailing forwarding call. -/
theorem c1_forward_counterexample :
    WinitApplicationHandler.window_event (C := Nat)
        ⟨some (), none, 0⟩ (WindowEvent.Resized ⟨800, 600⟩) = some [] ∧
      Effect.appWindowEvent ⟨some (), none⟩ (WindowEvent.Resized ⟨800, 600⟩) ∉
        (WinitApplicationHandler.window_event (C := Nat)
          ⟨some (), none, 0⟩ (WindowEvent.Resized ⟨800, 600⟩)).getD [] := by
  decide

/-- Claim C1, amended: for every window event delivered with a window
present, the generic window-event callback is invoked with the raw
event after any built-in handling — unless the event is `Resized` or
`RedrawRequested` and the bundle is absent, in which case the handler
returns early and the callback is skipped. -/
theorem c1_forward_amended (s : WinitApplicationHandler) (event : WindowEvent)
    (hw : s.window.isSome) :
    ∃ effs, WinitApplicationHandler.window_event (C := Nat) s event = some effs ∧
      (earlyReturn s event = false →
        effs.getLast? = some (Effect.appWindowEvent ⟨s.window, s.wgpu⟩ event)) ∧
      (earlyReturn s event = true → effs = []) := by
  rcases s with ⟨win, wgpu, sc⟩
  cases event <;> cases win <;> cases wgpu <;>
    simp_all [WinitApplicationHandler.window_event, earlyReturn]

/-- Witness for `c1_forward_amended` at a concrete state and event. -/
theorem c1_forward_amended_witness :
    ∃ effs, WinitApplicationHandler.window_event (C := Nat)
        ⟨some (), some (Wgpu.new 0), 0⟩ WindowEvent.other = some effs ∧
      (earlyReturn ⟨some (), some (Wgpu.new 0), 0⟩ WindowEvent.other = false →
        effs.getLast? = some (Effect.appWindowEvent
          ⟨some (), some (Wgpu.new 0)⟩ WindowEvent.other)) ∧
      (earlyReturn ⟨some (), some (Wgpu.new 0), 0⟩ WindowEvent.other = true →
        effs = []) :=
  c1_forward_amended ⟨some (), some (Wgpu.new 0), 0⟩ WindowEvent.other rfl

/-- Claim C2: on `RedrawRequested` with a window present, the redraw
callback fires exactly when a bundle is present, and with the current
bundle. -/
theorem c2_redraw_iff_bundle (s : WinitApplicationHandler) (hw : s.window.isSome) :
    ∃ effs, WinitApplicationHandler.window_event (C := Nat) s
        WindowEvent.RedrawRequested = some effs ∧
      ((∃ wgpu, Effect.appRedraw wgpu ∈ effs) ↔ s.wgpu.isSome) ∧
      (∀ wgpu, s.wgpu = some wgpu → Effect.appRedraw wgpu ∈ effs) := by
  rcases s with ⟨win, wgpu, sc⟩
  cases win <;> cases wgpu <;>
    simp_all [WinitApplicationHandler.window_event]

/-- Witness for `c2_redraw_iff_bundle` at a concrete bundle-present state. -/
theorem c2_redraw_iff_bundle_witness :
    ∃ effs, WinitApplicationHandler.window_event (C := Nat)
        ⟨some (), some (Wgpu.new 2), 0⟩ WindowEvent.RedrawRequested = some effs ∧
      ((∃ wgpu, Effect.appRedraw wgpu ∈ effs) ↔
        (some (Wgpu.new 2) : Option Wgpu).isSome) ∧
      (∀ wgpu, (some (Wgpu.new 2) : Option Wgpu) = some wgpu →
        Effect.appRedraw wgpu ∈ effs) :=
  c2_redraw_iff_bundle ⟨some (), some (Wgpu.new 2), 0⟩ rfl

/-- Claim C3: along every panic-free trace from the initial state, at most
one window construction ever occurs, however many resume signals fire. -/
theorem c3_at_most_one_window (evs : List (Event Nat))
    (s : WinitApplicationHandler) (effs : List (Effect Nat))
    (h : run WinitApplicationHandler.new evs = some (s, effs)) :
    countCreates effs ≤ 1 := by
  have hc := run_window_count h
  simp [WinitApplicationHandler.new] at hc
  by_cases hw : s.window.isSome <;> simp [hw] at hc <;> omega

/-- Witness for `c3_at_most_one_window`: two consecutive resumes create
the window only once. -/
theorem c3_at_most_one_window_witness :
    countCreates [Effect.createWindow (C := Nat),
      Effect.launchBuild 0, Effect.launchBuild 0] ≤ 1 :=
  c3_at_most_one_window [Event.resumed, Event.resumed] ⟨some (), none, 0⟩
    [Effect.createWindow, Effect.launchBuild 0, Effect.launchBuild 0] (by rfl)

/-- Claim C4: below the `u64` bound, a suspend signal increments the
counter by exactly one; a resume fired immediately afterwards launches
the build tagged with the incremented counter, and `Wgpu::new` stores
that tag unchanged in the bundle's `suspend_count` field. -/
theorem c4_suspend_counter (s : WinitApplicationHandler)
    (h : s.suspend_count + 1 < U64_MOD) :
    (WinitApplicationHandler.suspended (C := Nat) s).1.suspend_count
        = s.suspend_count + 1 ∧
      Effect.launchBuild (s.suspend_count + 1) ∈
        (WinitApplicationHandler.resumed (C := Nat)
          (WinitApplicationHandler.suspended (C := Nat) s).1).2 ∧
      (Wgpu.new (s.suspend_count + 1)).suspend_count = s.suspend_count + 1 := by
  have hmod : (s.suspend_count + 1) % U64_MOD = s.suspend_count + 1 :=
    Nat.mod_eq_of_lt h
  refine ⟨?_, ?_, rfl⟩
  · simp [WinitApplicationHandler.suspended, hmod]
  · rcases s with ⟨win, wgpu, sc⟩
    cases win <;>
      simp [WinitApplicationHandler.suspended,
        WinitApplicationHandler.resumed, hmod]

/-- Witness for `c4_suspend_counter` at counter value 5. -/
theorem c4_suspend_counter_witness :
    (WinitApplicationHandler.suspended (C := Nat)
        ⟨some (), some (Wgpu.new 0), 5⟩).1.suspend_count = 5 + 1 ∧
      Effect.launchBuild (5 + 1) ∈
        (WinitApplicationHandler.resumed (C := Nat)
          (WinitApplicationHandler.suspended (C := Nat)
            ⟨some (), some (Wgpu.new 0), 5⟩).1).2 ∧
      (Wgpu.new (5 + 1)).suspend_count = 5 + 1 :=
  c4_suspend_counter ⟨some (), some (Wgpu.new 0), 5⟩ (by norm_num [U64_MOD])

/-- Claim C5: after any panic-free trace from the initial state, the
bundle is present exactly when the most recent bundle-deciding
lifecycle signal was a consumed builder-ready message — absent before
the first such message and absent from each suspend until the next
builder-ready message. -/
theorem c5_bundle_presence (evs : List (Event Nat))
    (s : WinitApplicationHandler) (effs : List (Effect Nat))
    (h : run WinitApplicationHandler.new evs = some (s, effs)) :
    s.wgpu.isSome = lastSignalIsReady evs := by
  rw [run_wgpu_foldl h]
  rfl

/-- Witness for `c5_bundle_presence`: resume, builder-ready, suspend ends
with the bundle absent, matching the trace predicate. -/
theorem c5_bundle_presence_witness :
    (⟨some (), none, 1⟩ : WinitApplicationHandler).wgpu.isSome =
      lastSignalIsReady (C := Nat) [Event.resumed,
        Event.userEvent (UserEvent.WgpuReady (Wgpu.new 0)), Event.suspended] :=
  c5_bundle_presence
    [Event.resumed, Event.userEvent (UserEvent.WgpuReady (Wgpu.new 0)),
      Event.suspended]
    ⟨some (), none, 1⟩
    [Effect.createWindow, Effect.launchBuild 0,
      Effect.appResumed ⟨some (), some (Wgpu.new 0)⟩, Effect.requestRedraw,
      Effect.appSuspended ⟨some (), none⟩]
    (by rfl)

/-- Claim C6: in every state reachable by a panic-free trace from the
initial state, a present bundle implies a present window. -/
theorem c6_bundle_implies_window (evs : List (Event Nat))
    (s : WinitApplicationHandler) (effs : List (Effect Nat))
    (h : run WinitApplicationHandler.new evs = some (s, effs))
    (hg : s.wgpu.isSome) : s.window.isSome :=
  run_wgpu_window h (fun hh => hh) hg

/-- Witness for `c6_bundle_implies_window` after resume and builder-ready. -/
theorem c6_bundle_implies_window_witness :
    (⟨some (), some (Wgpu.new 0), 0⟩ : WinitApplicationHandler).window.isSome :=
  c6_bundle_implies_window
    [Event.resumed, Event.userEvent (UserEvent.WgpuReady (Wgpu.new 0))]
    ⟨some (), some (Wgpu.new 0), 0⟩
    [Effect.createWindow, Effect.launchBuild 0,
      Effect.appResumed ⟨some (), some (Wgpu.new 0)⟩, Effect.requestRedraw]
    (by rfl) rfl

/-- Claim C7: a resize event with a zero width or height, handled with a
bundle present, applies a surface configuration clamped to at least 1
in each dimension. -/
theorem c7_resize_clamped (s : WinitApplicationHandler) (size : PhysicalSize)
    (hw : s.window.isSome) (hg : s.wgpu.isSome)
    (h0 : size.width = 0 ∨ size.height = 0) :
    ∃ effs, WinitApplicationHandler.window_event (C := Nat) s
        (WindowEvent.Resized size) = some effs ∧
      Effect.surfaceConfigure (surface_configuration size) ∈ effs ∧
      1 ≤ (surface_configuration size).width ∧
      1 ≤ (surface_configuration size).height := by
  rcases s with ⟨win, wgpu, sc⟩
  cases win <;> cases wgpu <;>
    simp_all [WinitApplicationHandler.window_event, surface_configuration,
      get_default_config, le_max_iff]

/-- Witness for `c7_resize_clamped` at a 0-by-600 resize. -/
theorem c7_resize_clamped_witness :
    ∃ effs, WinitApplicationHandler.window_event (C := Nat)
        ⟨some (), some (Wgpu.new 0), 0⟩
        (WindowEvent.Resized ⟨0, 600⟩) = some effs ∧
      Effect.surfaceConfigure (surface_configuration ⟨0, 600⟩) ∈ effs ∧
      1 ≤ (surface_configuration ⟨0, 600⟩).width ∧
      1 ≤ (surface_configuration ⟨0, 600⟩).height :=
  c7_resize_clamped ⟨some (), some (Wgpu.new 0), 0⟩ ⟨0, 600⟩ rfl rfl (Or.inl rfl)

/-- Claim C8: a custom-event send into a closed loop returns the typed
`EventLoopClosed` error carrying the original payload (no panic); a
send into a live loop succeeds. -/
theorem c8_send_event_closed_recoverable (e : Nat) :
    UserEventSender.send_event false e = some (Except.error ⟨e⟩) ∧
    UserEventSender.send_event true e = some (Except.ok ()) :=
  ⟨rfl, rfl⟩

/-- Claim C9: consuming a builder-ready message with a window present
installs the carried bundle (replacing any previous one), invokes the
application's resume callback with window and bundle both present, and
requests a redraw. -/
theorem c9_ready_installs (s : WinitApplicationHandler) (wgpu : Wgpu)
    (hw : s.window.isSome) :
    WinitApplicationHandler.user_event (C := Nat) s (UserEvent.WgpuReady wgpu)
      = some ({ s with wgpu := some wgpu },
        [Effect.appResumed ⟨some (), some wgpu⟩, Effect.requestRedraw]) := by
  rcases s with ⟨win, w0, sc⟩
  cases win <;> simp_all [WinitApplicationHandler.user_event]

/-- Witness for `c9_ready_installs`: a new bundle replaces an old one. -/
theorem c9_ready_installs_witness :
    WinitApplicationHandler.user_event (C := Nat)
        ⟨some (), some (Wgpu.new 0), 3⟩ (UserEvent.WgpuReady (Wgpu.new 1))
      = some (⟨some (), some (Wgpu.new 1), 3⟩,
        [Effect.appResumed ⟨some (), some (Wgpu.new 1)⟩, Effect.requestRedraw]) :=
  c9_ready_installs ⟨some (), some (Wgpu.new 0), 3⟩ (Wgpu.new 1) rfl

/-- Claim C10: the `Resized` and `RedrawRequested` branches unwrap the
window slot before consulting the wgpu slot, so either event delivered
with no stored window panics (whatever the wgpu slot holds); with a
window present the unwrap never fails. -/
theorem c10_unwrap_window (event : WindowEvent)
    (hev : (∃ size, event = WindowEvent.Resized size) ∨
      event = WindowEvent.RedrawRequested) :
    (∀ wgpu sc, WinitApplicationHandler.window_event (C := Nat)
        ⟨none, wgpu, sc⟩ event = none) ∧
    (∀ s : WinitApplicationHandler, s.window.isSome →
      ∃ effs, WinitApplicationHandler.window_event (C := Nat) s event
        = some effs) := by
  constructor
  · intro wgpu sc
    rcases hev with ⟨size, rfl⟩ | rfl <;> rfl
  · intro s hw
    rcases s with ⟨win, wgpu, sc⟩
    cases win
    · simp at hw
    · rcases hev with ⟨size, rfl⟩ | rfl <;> cases wgpu <;> exact ⟨_, rfl⟩

/-- Witness for `c10_unwrap_window`: `RedrawRequested` with no window but
a bundle present still panics. -/
theorem c10_unwrap_window_witness :
    WinitApplicationHandler.window_event (C := Nat)
      ⟨none, some (Wgpu.new 0), 0⟩ WindowEvent.RedrawRequested = none :=
  (c10_unwrap_window WindowEvent.RedrawRequested (Or.inr rfl)).1
    (some (Wgpu.new 0)) 0

end Wginit
